import Mathlib

/-!
Verification of the stubz interface-stub generator (src/main.go).

The Go program is embedded shallowly:

* `Expr` models the `go/ast` type-expression nodes that `getTypeString`
  (main.go:273-293) distinguishes.  Every remaining implementation of
  `ast.Expr` is a pointer to a struct of package `ast`, so the debug
  fallback `fmt.Sprintf("%T", expr)` prints `*ast.<Kind>`; the `other`
  constructor carries `<Kind>`.
* A field of an `ast.FieldList` is a pair `(names, type)`; a `nil`
  `*ast.FieldList` and an empty one behave identically in every function
  embedded here (each loops over `fields.List`), so both are the empty list.
* Go slices of strings are `List String`; a `nil` result slice is `[]`.
* The Go standard library calls used by `generateStubCode`
  (`text/template` execution, `go/parser.ParseFile`, `go/format.Node`)
  are modelled as function parameters; fallible calls return `Except`.
* A Go panic is modelled as `Option.none` (`zip`'s unequal-length panic,
  and the unchecked type assertion `method.Type.(*ast.FuncType)`).
-/

/-- Type-expression nodes of `go/ast` as matched by `getTypeString`
(main.go:273-293).  `interfaceType` keeps its method field list (needed by
`findInterface`); `funcType` keeps its parameter and result field lists,
each field being `(names, type)`. -/
inductive Expr where
  | ident (name : String)
  | selector (x : Expr) (sel : String)
  | star (x : Expr)
  | array (elt : Expr)
  | mapType (key value : Expr)
  | interfaceType (methods : List (List String × Expr))
  | funcType (params results : List (List String × Expr))
  | other (kindName : String)
deriving Repr

/-- An `ast.Field`: its `Names` slice and its `Type`. -/
abbrev GoField := List String × Expr

mutual

/-- `getTypeString` (main.go:273-293): prints a type expression.
Total, hence terminating on every finite expression. -/
def getTypeString : Expr → String
  | .ident n => n
  | .selector x s => getTypeString x ++ "." ++ s
  | .star x => "*" ++ getTypeString x
  | .array elt => "[]" ++ getTypeString elt
  | .mapType k v => "map[" ++ getTypeString k ++ "]" ++ getTypeString v
  | .interfaceType _ => "interface\x7b\x7d"
  | .funcType ps rs =>
      "func(" ++ String.intercalate ", " (getFieldList ps) ++ ") "
        ++ String.intercalate ", " (getFieldList rs)
  | .other k => "*ast." ++ k

/-- `getFieldList` (main.go:221-237): one `"name type"` string per declared
name, or the bare type string when the field declares no names. -/
def getFieldList : List GoField → List String
  | [] => []
  | (names, ty) :: rest =>
      (if 0 < names.length
        then names.map (fun n => n ++ " " ++ getTypeString ty)
        else [getTypeString ty])
      ++ getFieldList rest

end

/-- `getFieldNames` (main.go:239-254): declared names, `_` for a field with
no names. -/
def getFieldNames : List GoField → List String
  | [] => []
  | (names, _) :: rest =>
      (if 0 < names.length then names else ["_"]) ++ getFieldNames rest

/-- The loop body of `getResultNames` (main.go:256-271); `i` is the running
index of `for i, field := range fields.List`. -/
def getResultNamesAux (i : Nat) : List GoField → List String
  | [] => []
  | (names, _) :: rest =>
      (if 0 < names.length then names else ["R" ++ toString i])
      ++ getResultNamesAux (i + 1) rest

/-- `getResultNames` (main.go:256-271): declared names, `Ri` for an unnamed
field at field-list index `i`. -/
def getResultNames (fields : List GoField) : List String :=
  getResultNamesAux 0 fields

/-- `zip` (main.go:119-128).  The panic on unequal lengths is `none`; the
`fmt.Sprintf(fmtStr, a[i], b[i])` call is the parameter `f`. -/
def zip (a b : List String) (f : String → String → String) :
    Option (List String) :=
  if a.length = b.length then some (List.zipWith f a b) else none

/-- `methodData` (main.go:111-117). -/
structure MethodData where
  Name : String
  Params : List String
  ParamNames : List String
  Results : List String
  ResultNames : List String
deriving Repr, DecidableEq

/-- The method loop of `generateStubCode` (main.go:155-175): skip fields with
no names (embedded interfaces), otherwise take `Names[0]` and normalize the
signature.  The unchecked assertion `method.Type.(*ast.FuncType)` panics on a
named field whose type is not a function type; that panic is `none`. -/
def buildMethodsData : List GoField → Option (List MethodData)
  | [] => some []
  | (names, ty) :: rest =>
      match names with
      | [] => buildMethodsData rest
      | n0 :: _ =>
          match ty with
          | .funcType ps rs =>
              (buildMethodsData rest).map (fun l =>
                { Name := n0
                  Params := getFieldList ps
                  ParamNames := getFieldNames ps
                  Results := getFieldList rs
                  ResultNames := getResultNames rs } :: l)
          | _ => none

/-- The anonymous struct passed to `tmpl.Execute` (main.go:180-190). -/
structure StubSpec where
  PackageName : String
  InterfaceName : String
  StubName : String
  Methods : List MethodData
deriving Repr, DecidableEq

/-- `generateStubCode` (main.go:136-214).  `execute` is `tmpl.Execute` on
the fixed parsed template (rendering into `buf`), `parseFile` is
`parser.ParseFile`, `formatNode` is `format.Node` rendering into
`formattedBuf`; all three are Go standard library calls, modelled as
parameters.  The debug `fmt.Println(prettyPrint ...)` only writes to stdout
and does not affect the returned value.  The outer `Option` is `none` when
the method loop panics. -/
def generateStubCode {α : Type}
    (execute : StubSpec → Except String String)
    (parseFile : String → Except String α)
    (formatNode : α → Except String String)
    (interfaceName : String) (methods : List GoField)
    (packageName : String) (disableFormatting : Bool) :
    Option (Except String String) :=
  let stubName := "Stub" ++ interfaceName
  match buildMethodsData methods with
  | none => none
  | some methodsData =>
      some <|
        match execute
            { PackageName := packageName
              InterfaceName := interfaceName
              StubName := stubName
              Methods := methodsData } with
        | .error e => .error ("error generating stub: " ++ e)
        | .ok buf =>
            if !disableFormatting then
              match parseFile buf with
              | .error e => .error ("error parsing generated code: " ++ e)
              | .ok node =>
                  match formatNode node with
                  | .error e =>
                      .error ("error formatting generated code: " ++ e)
                  | .ok s => .ok s
            else .ok buf

/-- A `*ast.TypeSpec`: its name and its type expression. -/
structure TypeSpec where
  name : String
  type : Expr
deriving Repr

/-- A loaded `packages.Package`: its name and, per parsed file, the
`TypeSpec` nodes in `ast.Inspect` traversal order. -/
structure Pkg where
  name : String
  files : List (List TypeSpec)
deriving Repr

/-- The match test inside the `ast.Inspect` callback (main.go:99-103):
`some methods` when the spec has the target name and an interface type. -/
def matchMethods (interfaceName : String) (ts : TypeSpec) :
    Option (List GoField) :=
  if ts.name = interfaceName then
    match ts.type with
    | .interfaceType ms => some ms
    | _ => none
  else none

/-- One file's `ast.Inspect` walk (main.go:97-105): each matching `TypeSpec`
overwrites `interfaceMethods`. -/
def scanFile (interfaceName : String) (acc : List GoField)
    (file : List TypeSpec) : List GoField :=
  file.foldl (fun ms ts => (matchMethods interfaceName ts).getD ms) acc

/-- `findInterface` (main.go:74-109).  `load` models `packages.Load`
together with the `packages.PrintErrors` check: `.error` when loading fails
or the packages contain errors.  The scan starts from the `nil` slice `[]`
and the empty package name, overwriting both as the loops run. -/
def findInterface (load : Except String (List Pkg))
    (interfaceName : String) : Except String (List GoField × String) :=
  match load with
  | .error e => .error e
  | .ok pkgs =>
      .ok (pkgs.foldl
        (fun st pkg =>
          (pkg.files.foldl (scanFile interfaceName) st.1, pkg.name))
        ([], ""))

/-- All `TypeSpec` nodes of all packages, in traversal order. -/
def allSpecs (pkgs : List Pkg) : List TypeSpec :=
  pkgs.flatMap (fun p => p.files.flatten)

/-! ## Helper lemmas -/

theorem getFieldList_length_eq_getFieldNames_length (fs : List GoField) :
    (getFieldList fs).length = (getFieldNames fs).length := by
  induction fs with
  | nil => rfl
  | cons f rest ih =>
      obtain ⟨names, ty⟩ := f
      by_cases h : 0 < names.length <;>
        simp [getFieldList, getFieldNames, h, ih]

theorem getResultNamesAux_length (i : Nat) (fs : List GoField) :
    (getResultNamesAux i fs).length = (getFieldNames fs).length := by
  induction fs generalizing i with
  | nil => rfl
  | cons f rest ih =>
      obtain ⟨names, ty⟩ := f
      by_cases h : 0 < names.length <;>
        simp [getResultNamesAux, getFieldNames, h, ih]

theorem getFieldList_length_eq_getResultNames_length (fs : List GoField) :
    (getFieldList fs).length = (getResultNames fs).length := by
  rw [getResultNames, getResultNamesAux_length,
    getFieldList_length_eq_getFieldNames_length]

/-- Every record the method loop keeps satisfies the paired-length
invariant, because its four lists come from the helpers above applied to
the same parameter and result field lists. -/
theorem buildMethodsData_mem_lengths {ms : List GoField} {l : List MethodData}
    {md : MethodData} (hb : buildMethodsData ms = some l) (hm : md ∈ l) :
    md.Params.length = md.ParamNames.length
      ∧ md.Results.length = md.ResultNames.length := by
  induction ms generalizing l with
  | nil =>
      rw [buildMethodsData] at hb
      injection hb with hb
      subst hb
      cases hm
  | cons f rest ih =>
      obtain ⟨names, ty⟩ := f
      cases names with
      | nil =>
          rw [buildMethodsData] at hb
          exact ih hb hm
      | cons n0 ns =>
          cases ty
          case funcType ps rs =>
            rw [buildMethodsData] at hb
            cases hr : buildMethodsData rest with
            | none => rw [hr] at hb; cases hb
            | some l' =>
                rw [hr] at hb
                simp only [Option.map_some'] at hb
                injection hb with hb
                subst hb
                cases hm with
                | head =>
                    exact ⟨getFieldList_length_eq_getFieldNames_length ps,
                      getFieldList_length_eq_getResultNames_length rs⟩
                | tail _ hm => exact ih hr hm
          all_goals simp [buildMethodsData] at hb

theorem getResultNamesAux_enumFrom (i : Nat) (fs : List GoField) :
    getResultNamesAux i fs =
      (List.enumFrom i fs).flatMap
        (fun p => if 0 < p.2.1.length then p.2.1 else ["R" ++ toString p.1]) := by
  induction fs generalizing i with
  | nil => rfl
  | cons f rest ih =>
      obtain ⟨names, ty⟩ := f
      by_cases h : 0 < names.length <;>
        simp [getResultNamesAux, List.enumFrom, h, ih]

theorem foldl_getD_eq_filterMap {α β : Type} (f : α → Option β)
    (l : List α) (acc : β) :
    l.foldl (fun a x => (f x).getD a) acc = (l.filterMap f).getLastD acc := by
  induction l generalizing acc with
  | nil => rfl
  | cons x l ih =>
      rw [List.foldl_cons, ih]
      cases hf : f x with
      | none => simp only [hf, List.filterMap_cons, Option.getD_none]
      | some b =>
          simp only [hf, List.filterMap_cons, Option.getD_some,
            List.getLastD_cons]

theorem getLastD_append {α : Type} (l₁ l₂ : List α) (d : α) :
    (l₁ ++ l₂).getLastD d = l₂.getLastD (l₁.getLastD d) := by
  induction l₁ generalizing d with
  | nil => rfl
  | cons x l ih => simp only [List.cons_append, List.getLastD_cons, ih]

theorem scanFile_eq (nm : String) (acc : List GoField)
    (file : List TypeSpec) :
    scanFile nm acc file
      = (file.filterMap (matchMethods nm)).getLastD acc :=
  foldl_getD_eq_filterMap (matchMethods nm) file acc

theorem foldl_scanFile_eq (nm : String) (files : List (List TypeSpec))
    (acc : List GoField) :
    files.foldl (scanFile nm) acc
      = (files.flatten.filterMap (matchMethods nm)).getLastD acc := by
  induction files generalizing acc with
  | nil => rfl
  | cons f fs ih =>
      rw [List.foldl_cons, ih, scanFile_eq]
      simp only [List.flatten_cons, List.filterMap_append, getLastD_append]

theorem findInterface_scan_eq (nm : String) (pkgs : List Pkg)
    (st : List GoField × String) :
    pkgs.foldl
        (fun st pkg => (pkg.files.foldl (scanFile nm) st.1, pkg.name)) st
      = (((pkgs.flatMap (fun p => p.files.flatten)).filterMap
            (matchMethods nm)).getLastD st.1,
         (pkgs.map Pkg.name).getLastD st.2) := by
  induction pkgs generalizing st with
  | nil => rfl
  | cons p ps ih =>
      rw [List.foldl_cons, ih, foldl_scanFile_eq]
      simp only [List.flatMap_cons, List.filterMap_append, getLastD_append,
        List.map_cons, List.getLastD_cons]

/-! ## Claims -/

/-- C2 counterexample: for the result field list of `(a, b int, int)` the
code synthesizes `R1` for the unnamed entry — the field-list index of its
comma group — not `R2`, its position among all flattened result entries. -/
theorem getResultNames_position_counterexample :
    getResultNames [(["a", "b"], Expr.ident "int"), ([], Expr.ident "int")]
        = ["a", "b", "R1"]
      ∧ getResultNames [(["a", "b"], Expr.ident "int"), ([], Expr.ident "int")]
        ≠ ["a", "b", "R2"] := by
  constructor
  · rfl
  · decide

/-- C2 (amended): each unnamed result field is assigned `Rn` where `n` is
the zero-based index of the field (comma group) in the result field list —
named and unnamed fields each advance the index by one group, regardless of
how many names a group declares. -/
theorem getResultNames_by_field_index (fs : List GoField) :
    getResultNames fs =
      fs.enum.flatMap
        (fun p => if 0 < p.2.1.length then p.2.1
          else ["R" ++ toString p.1]) :=
  getResultNamesAux_enumFrom 0 fs

/-- C3: every record built by the method loop of `generateStubCode` has as
many parameter declaration strings as parameter names, and as many result
declaration strings as result names. -/
theorem stubMethodData_paired_lengths (ms : List GoField)
    (l : List MethodData) (md : MethodData)
    (hb : buildMethodsData ms = some l) (hm : md ∈ l) :
    md.Params.length = md.ParamNames.length
      ∧ md.Results.length = md.ResultNames.length :=
  buildMethodsData_mem_lengths hb hm

/-- C3 witness: the invariant at a concrete signature
`M(a, b int, string) error`. -/
theorem stubMethodData_paired_lengths_witness :
    (MethodData.mk "M" ["a int", "b int", "string"] ["a", "b", "_"]
        ["error"] ["R0"]).Params.length
      = (MethodData.mk "M" ["a int", "b int", "string"] ["a", "b", "_"]
        ["error"] ["R0"]).ParamNames.length
    ∧ (MethodData.mk "M" ["a int", "b int", "string"] ["a", "b", "_"]
        ["error"] ["R0"]).Results.length
      = (MethodData.mk "M" ["a int", "b int", "string"] ["a", "b", "_"]
        ["error"] ["R0"]).ResultNames.length :=
  stubMethodData_paired_lengths
    [(["M"], Expr.funcType
      [(["a", "b"], Expr.ident "int"), ([], Expr.ident "string")]
      [([], Expr.ident "error")])]
    [MethodData.mk "M" ["a int", "b int", "string"] ["a", "b", "_"]
      ["error"] ["R0"]]
    (MethodData.mk "M" ["a int", "b int", "string"] ["a", "b", "_"]
      ["error"] ["R0"])
    (by decide) (by decide)

/-- C4: a field with `k ≥ 1` declared names fans out into one entry per
name, in order, each paired with the same printed type string; a field with
no names yields exactly one entry whose name entry is `_` for parameters. -/
theorem field_fanout_spec (names : List String) (ty : Expr)
    (rest : List GoField) :
    (names ≠ [] →
      getFieldList ((names, ty) :: rest)
          = names.map (fun n => n ++ " " ++ getTypeString ty)
            ++ getFieldList rest
        ∧ getFieldNames ((names, ty) :: rest) = names ++ getFieldNames rest)
    ∧ (names = [] →
      getFieldList ((names, ty) :: rest)
          = getTypeString ty :: getFieldList rest
        ∧ getFieldNames ((names, ty) :: rest)
          = "_" :: getFieldNames rest) := by
  constructor
  · intro h
    have hl : 0 < names.length := List.length_pos.mpr h
    exact ⟨by simp [getFieldList, hl], by simp [getFieldNames, hl]⟩
  · rintro rfl
    exact ⟨by simp [getFieldList], by simp [getFieldNames]⟩

/-- C4 witness: fan-out of `a, b int` and the `_` entry of an unnamed
parameter, at a concrete field list. -/
theorem field_fanout_spec_witness :
    getFieldList [(["a", "b"], Expr.ident "int"), ([], Expr.ident "error")]
        = ["a int", "b int", "error"]
      ∧ getFieldNames [(["a", "b"], Expr.ident "int"),
          ([], Expr.ident "error")] = ["a", "b", "_"] := by
  have h := field_fanout_spec ["a", "b"] (Expr.ident "int")
    [([], Expr.ident "error")]
  constructor
  · rw [(h.1 (by decide)).1]; decide
  · rw [(h.1 (by decide)).2]; decide

/-- C7: the type-expression printer is a total function of the finite
expression (hence terminates), prints identifiers verbatim, qualified names
as `x.Sel`, pointers with a `*` suffix-recursion, slices with `[]`, maps as
`map[K]V`, the empty interface literally, function types with comma-joined
recursively printed field lists, and a never-empty debug fallback for any
other node kind. -/
theorem getTypeString_rules :
    (∀ n, getTypeString (.ident n) = n)
    ∧ (∀ x s, getTypeString (.selector x s) = getTypeString x ++ "." ++ s)
    ∧ (∀ x, getTypeString (.star x) = "*" ++ getTypeString x)
    ∧ (∀ x, getTypeString (.array x) = "[]" ++ getTypeString x)
    ∧ (∀ k v, getTypeString (.mapType k v)
        = "map[" ++ getTypeString k ++ "]" ++ getTypeString v)
    ∧ getTypeString (.interfaceType []) = "interface\x7b\x7d"
    ∧ (∀ ps rs, getTypeString (.funcType ps rs)
        = "func(" ++ String.intercalate ", " (getFieldList ps) ++ ") "
          ++ String.intercalate ", " (getFieldList rs))
    ∧ (∀ k, 0 < (getTypeString (.other k)).length) := by
  refine ⟨fun n => rfl, fun x s => rfl, fun x => rfl, fun x => rfl,
    fun k v => rfl, rfl, fun ps rs => rfl, fun k => ?_⟩
  have h : getTypeString (.other k) = "*ast." ++ k := rfl
  have h5 : ("*ast." : String).length = 5 := rfl
  rw [h, String.length_append]
  omega

/-- C10: `zip` panics (returns `none`) exactly when its two lists have
unequal lengths, and for every record built by the method loop both the
`Params`/`ParamNames` pairing and the `Results`/`ResultNames` pairing
satisfy the equal-length precondition, so the panic branch is unreachable
when rendering that data. -/
theorem zip_panic_unreachable :
    (∀ a b f, zip a b f = none ↔ ¬ a.length = b.length)
    ∧ (∀ ms l md f, buildMethodsData ms = some l → md ∈ l →
        (zip md.Params md.ParamNames f).isSome = true
          ∧ (zip md.Results md.ResultNames f).isSome = true) := by
  constructor
  · intro a b f
    rw [zip]
    split
    · simp_all
    · simp_all
  · intro ms l md f hb hm
    obtain ⟨h1, h2⟩ := buildMethodsData_mem_lengths hb hm
    exact ⟨by simp [zip, h1], by simp [zip, h2]⟩

/-- C10 witness: the panic at concretely unequal lists, and both pairings
succeeding for the record of a concrete method. -/
theorem zip_panic_unreachable_witness :
    zip ["x"] [] (fun a b => a ++ b) = none
      ∧ (zip [] [] (fun a b => a ++ b)).isSome = true := by
  constructor
  · exact (zip_panic_unreachable.1 ["x"] [] (fun a b => a ++ b)).mpr
      (by decide)
  · exact (zip_panic_unreachable.2 [(["M"], Expr.funcType [] [])]
      [MethodData.mk "M" [] [] [] []] (MethodData.mk "M" [] [] [] [])
      (fun a b => a ++ b) (by decide) (by decide)).1

/-- C1 counterexample: with two type declarations named `I`, both with
interface underlying types, in one file, `findInterface` returns the method
list of the SECOND (later) declaration, which differs from the first
declaration's method list. -/
theorem findInterface_first_match_counterexample :
    findInterface
        (.ok [Pkg.mk "p" [[TypeSpec.mk "I"
            (Expr.interfaceType [(["MA"], Expr.funcType [] [])]),
          TypeSpec.mk "I"
            (Expr.interfaceType [(["MB"], Expr.funcType [] [])])]]])
        "I"
      = .ok ([(["MB"], Expr.funcType [] [])], "p")
    ∧ ([(["MB"], Expr.funcType [] [])] : List GoField)
      ≠ [(["MA"], Expr.funcType [] [])] := by
  constructor
  · rfl
  · intro h
    have hfst := congrArg (fun l => l.map Prod.fst) h
    simp at hfst

/-- C1 (amended): when loading succeeds, the method list `findInterface`
returns is that of the LAST matching declaration in traversal order — each
later declaration with the target name and an interface type overwrites the
earlier match — and the package name is the last loaded package's name
(with `[]` and `""` when there is no match or no package). -/
theorem findInterface_last_match_wins (pkgs : List Pkg) (nm : String) :
    findInterface (.ok pkgs) nm
      = .ok (((allSpecs pkgs).filterMap (matchMethods nm)).getLastD [],
          (pkgs.map Pkg.name).getLastD "") := by
  simp only [findInterface]
  rw [findInterface_scan_eq]
  rfl

/-- C5: the records built from a matched interface's field list contain
exactly one entry per directly declared (named) method field, in
declaration order: the record names are exactly the first declared names of
the named fields, in order; unnamed (embedded-interface) entries contribute
nothing. -/
theorem methods_once_in_declaration_order (ms : List GoField)
    (l : List MethodData) (hb : buildMethodsData ms = some l) :
    l.map MethodData.Name = ms.filterMap (fun f => f.1.head?) := by
  induction ms generalizing l with
  | nil =>
      rw [buildMethodsData] at hb
      injection hb with hb
      subst hb
      rfl
  | cons f rest ih =>
      obtain ⟨names, ty⟩ := f
      cases names with
      | nil =>
          rw [buildMethodsData] at hb
          exact ih _ hb
      | cons n0 ns =>
          cases ty
          case funcType ps rs =>
            rw [buildMethodsData] at hb
            cases hr : buildMethodsData rest with
            | none => rw [hr] at hb; cases hb
            | some l' =>
                rw [hr] at hb
                simp only [Option.map_some'] at hb
                injection hb with hb
                subst hb
                exact congrArg (fun t => n0 :: t) (ih _ hr)
          all_goals simp [buildMethodsData] at hb

/-- C5 witness: an interface with two named methods around an embedded
(unnamed) entry yields exactly the two records, in declaration order. -/
theorem methods_once_in_declaration_order_witness :
    [MethodData.mk "A" [] [] [] [], MethodData.mk "B" [] [] [] []].map
        MethodData.Name
      = [((["A"], Expr.funcType [] []) : GoField),
          (([], Expr.ident "Embedded") : GoField),
          ((["B"], Expr.funcType [] []) : GoField)].filterMap
          (fun f => f.1.head?) :=
  methods_once_in_declaration_order
    [(["A"], Expr.funcType [] []), ([], Expr.ident "Embedded"),
      (["B"], Expr.funcType [] [])]
    [MethodData.mk "A" [] [] [] [], MethodData.mk "B" [] [] [] []]
    (by decide)

/-- C6: when loading reports no error and no type declaration with the
target name has an interface underlying type — whether because no type of
that name exists or because the type of that name is not an interface —
`findInterface` returns the initial `nil` method list and no error; both
cases take the same path and produce structurally identical results. -/
theorem findInterface_not_found (pkgs : List Pkg) (nm : String)
    (h : ∀ ts ∈ allSpecs pkgs, ts.name = nm →
      ∀ ms, ts.type ≠ Expr.interfaceType ms) :
    findInterface (.ok pkgs) nm
      = .ok ([], (pkgs.map Pkg.name).getLastD "") := by
  have hnone : ∀ ts ∈ allSpecs pkgs, matchMethods nm ts = none := by
    intro ts hts
    rw [matchMethods]
    split
    · next heq =>
        cases hty : ts.type
        case interfaceType ms => exact absurd hty (h ts hts heq ms)
        all_goals rfl
    · rfl
  have hempty : (allSpecs pkgs).filterMap (matchMethods nm) = [] :=
    List.filterMap_eq_nil_iff.mpr hnone
  simp only [findInterface]
  rw [findInterface_scan_eq,
    show (pkgs.flatMap fun p => p.files.flatten) = allSpecs pkgs from rfl,
    hempty]
  rfl

/-- C6 witness: a package whose type `I` is a non-interface node and whose
only interface declaration has a different name. -/
theorem findInterface_not_found_witness :
    findInterface
        (.ok [Pkg.mk "p" [[TypeSpec.mk "I" (Expr.other "StructType"),
          TypeSpec.mk "J" (Expr.interfaceType [])]]]) "I"
      = .ok ([], "p") := by
  have h := findInterface_not_found
    [Pkg.mk "p" [[TypeSpec.mk "I" (Expr.other "StructType"),
      TypeSpec.mk "J" (Expr.interfaceType [])]]] "I" ?_
  · exact h
  · intro ts hts hname ms hty
    replace hts : ts ∈ [TypeSpec.mk "I" (Expr.other "StructType"),
        TypeSpec.mk "J" (Expr.interfaceType [])] := hts
    rcases List.mem_cons.mp hts with rfl | hts
    · cases hty
    · rcases List.mem_cons.mp hts with rfl | hts
      · exact absurd hname (by decide)
      · cases hts

/-- C8: when formatting is disabled `generateStubCode` returns the raw
rendered template text unchanged; when formatting is enabled and the
rendered text fails to reparse, it returns an error and in particular never
the unformatted text. -/
theorem generateStubCode_format_contract {α : Type}
    (execute : StubSpec → Except String String)
    (parseFile : String → Except String α)
    (formatNode : α → Except String String)
    (iN pN buf : String) (ms : List GoField) (mdl : List MethodData)
    (hb : buildMethodsData ms = some mdl)
    (he : execute (StubSpec.mk pN iN ("Stub" ++ iN) mdl) = .ok buf) :
    generateStubCode execute parseFile formatNode iN ms pN true
        = some (.ok buf)
      ∧ ∀ e, parseFile buf = .error e →
          generateStubCode execute parseFile formatNode iN ms pN false
              = some (.error ("error parsing generated code: " ++ e))
            ∧ generateStubCode execute parseFile formatNode iN ms pN false
              ≠ some (.ok buf) := by
  refine ⟨?_, fun e hpf => ⟨?_, ?_⟩⟩
  · simp [generateStubCode, hb, he]
  · simp [generateStubCode, hb, he, hpf]
  · simp [generateStubCode, hb, he, hpf]

/-- C8 witness: a rendering returning `"text"` with a parser that fails:
formatting disabled returns the raw text, enabled returns the parse
error. -/
theorem generateStubCode_format_contract_witness :
    generateStubCode (fun _ => Except.ok "text")
        (fun _ => (Except.error "bad" : Except String Unit))
        (fun _ => Except.ok "fmtd") "I" [] "p" true
        = some (.ok "text")
      ∧ generateStubCode (fun _ => Except.ok "text")
        (fun _ => (Except.error "bad" : Except String Unit))
        (fun _ => Except.ok "fmtd") "I" [] "p" false
        = some (.error ("error parsing generated code: " ++ "bad")) := by
  have h := generateStubCode_format_contract (fun _ => Except.ok "text")
    (fun _ => (Except.error "bad" : Except String Unit))
    (fun _ => Except.ok "fmtd") "I" "p" "text" [] [] rfl rfl
  exact ⟨h.1, (h.2 "bad" rfl).1⟩

/-- C9: `generateStubCode` is deterministic — two invocations on one and
the same input (rendering, parsing and formatting functions, interface
name, method list, package name, format flag) return identical output. -/
theorem generateStubCode_deterministic {α : Type}
    (execute : StubSpec → Except String String)
    (parseFile : String → Except String α)
    (formatNode : α → Except String String)
    (iN : String) (ms : List GoField) (pN : String) (d : Bool) :
    generateStubCode execute parseFile formatNode iN ms pN d
      = generateStubCode execute parseFile formatNode iN ms pN d := rfl
